import Mathlib

/-
Verification of the status-monitoring core of the `klar` on-screen-display
application against its natural-language specification.

The Python source (src/klar/__init__.py) is shallowly embedded below:
pure fragments become Lean functions over ℚ / ℤ / String, stateful methods
become explicit state-passing functions, exceptions become `Except` /
`Option PyErr` results, and the GLib main-loop scheduling primitives
(timeout_add / source_remove / idle_add) become explicit operations on a
small scheduler-state record.
-/

namespace Klar

/-! ## Python primitives -/

/-- Python `round` on a real-valued argument: round half to even
(banker's rounding), as used in `StatusBar.set_level`
(`int(round(...))`; `int` on the resulting integer is the identity). -/
def pyRound (x : ℚ) : ℤ :=
  if Int.fract x < 1/2 then ⌊x⌋
  else if 1/2 < Int.fract x then ⌊x⌋ + 1
  else if ⌊x⌋ % 2 = 0 then ⌊x⌋ else ⌊x⌋ + 1

/-- `max(0.0, min(1.0, level))` from `StatusBar.set_level`. -/
def clamp01 (x : ℚ) : ℚ := max 0 (min 1 x)

/-! ## StatusBar (src/klar/__init__.py, class StatusBar) -/

/-- One `StatusSegment` widget: the two CSS-class flags that
`set_active` / `set_warning` toggle. -/
structure StatusSegment where
  active : Bool
  warning : Bool
deriving DecidableEq, Repr

/-- A `StatusBar` widget: its `levels` attribute and its child segments
(the constructor appends `levels` segments). -/
structure StatusBar where
  levels : ℕ
  segments : List StatusSegment
deriving DecidableEq, Repr

/-- `StatusBar.__init__(levels)`: `levels` fresh (inactive) segments. -/
def StatusBar.init (levels : ℕ) : StatusBar :=
  { levels := levels, segments := List.replicate levels ⟨false, false⟩ }

/-- The loop body of `StatusBar.set_level`: for each segment at position
`i` (enumeration starting at `i0`), `set_active(i < filled_levels)` and
`set_warning(level > 1.0)`. -/
def setSegments (filled : ℤ) (warn : Bool) : ℕ → List StatusSegment → List StatusSegment
  | _, [] => []
  | i, s :: rest =>
      { s with active := decide ((i : ℤ) < filled), warning := warn }
        :: setSegments filled warn (i + 1) rest

/-- `StatusBar.set_level(level)`:
`filled_levels = int(round(max(0.0, min(1.0, level)) * self.levels))`,
then each segment `i` becomes active iff `i < filled_levels`, and gets
the warning flag iff `level > 1.0`. -/
def StatusBar.set_level (bar : StatusBar) (level : ℚ) : StatusBar :=
  let filled : ℤ := pyRound (clamp01 level * bar.levels)
  { bar with segments := setSegments filled (decide (level > 1)) 0 bar.segments }

/-- Number of active (filled) indicator segments of a bar. -/
def countActive (bar : StatusBar) : ℕ :=
  bar.segments.countP (fun s => s.active)

/-! ## Python `int(str)` (base 10)

`BrightnessMonitor.on_change` calls `int(data)`.  Python strips ASCII
whitespace, accepts an optional sign, then a nonempty ASCII digit string
in which single underscores may separate digits.  (Non-ASCII numerals
are not modelled.) -/

/-- ASCII whitespace stripped by Python `int`. -/
def isPyWs (c : Char) : Bool :=
  c = ' ' || c = '\t' || c = '\n' || c = '\r' || c = '\x0b' || c = '\x0c'

/-- Continue parsing a digit string after at least one digit: further
digits, each optionally preceded by a single underscore. -/
def parseDigitsRest (acc : ℕ) : List Char → Option ℕ
  | [] => some acc
  | '_' :: c :: rest =>
      if c.isDigit then parseDigitsRest (acc * 10 + (c.toNat - 48)) rest else none
  | c :: rest =>
      if c.isDigit then parseDigitsRest (acc * 10 + (c.toNat - 48)) rest else none

/-- A nonempty digit string (with optional underscore separators). -/
def parseDigits : List Char → Option ℕ
  | [] => none
  | c :: rest =>
      if c.isDigit then parseDigitsRest (c.toNat - 48) rest else none

/-- Python `int(s)` for a base-10 string literal; `none` models a
`ValueError` being raised. -/
def pyParseInt (s : String) : Option ℤ :=
  let cs := ((s.toList.dropWhile isPyWs).reverse.dropWhile isPyWs).reverse
  match cs with
  | '+' :: rest => (parseDigits rest).map (fun n => (n : ℤ))
  | '-' :: rest => (parseDigits rest).map (fun n => -(n : ℤ))
  | rest => (parseDigits rest).map (fun n => (n : ℤ))

/-! ## Monitor models shared pieces -/

/-- The Python exceptions that the embedded methods can raise. -/
inductive PyErr where
  | valueError
  | attributeError
deriving DecidableEq, Repr

/-- `StatusModel`: name, indicator granularity and current value
(`value` defaults to `0`; the `icon` handle is opaque and omitted). -/
structure StatusModel where
  name : String
  levels : ℕ
  value : ℚ := 0
deriving DecidableEq, Repr

/-! ## FileMonitor / BrightnessMonitor (src/klar/__init__.py) -/

/-- The mutable state of a `FileMonitor` / `BrightnessMonitor`:
`_file` (`none` models Python `None`), whether a `Gio.FileMonitor` is
connected (`_file_monitor` set by `do_start`), and the `brightness`
property. -/
structure BrightnessState where
  file : Option String
  monitorConnected : Bool
  brightness : ℚ
deriving DecidableEq, Repr

/-- `BrightnessMonitor.__init__`: `Gio.File.new_for_path(file)` is never
`None`, no file monitor yet, `brightness` property default `0.0`. -/
def BrightnessMonitor.init (file : String) : BrightnessState :=
  { file := some file, monitorConnected := false, brightness := 0 }

/-- `FileMonitor.do_start`: if `_file` is not `None`, create and connect
the `Gio.FileMonitor`. -/
def FileMonitor.do_start (st : BrightnessState) : BrightnessState :=
  if st.file.isSome then { st with monitorConnected := true } else st

/-- `FileMonitor.is_started`: `self._file is not None`. -/
def FileMonitor.is_started (st : BrightnessState) : Bool :=
  st.file.isSome

/-- `BrightnessMonitor.on_change(data)`:
`self.brightness = int(data) / self.max_brightness`.  If `int(data)`
raises, the exception propagates and `brightness` is untouched. -/
def BrightnessMonitor.on_change (max_brightness : ℤ) (st : BrightnessState)
    (data : String) : BrightnessState × Option PyErr :=
  match pyParseInt data with
  | none => (st, some PyErr.valueError)
  | some v => ({ st with brightness := (v : ℚ) / (max_brightness : ℚ) }, none)

/-- The relevant `Gio.FileMonitorEvent` values. -/
inductive FileMonitorEvent where
  | changesDoneHint
  | other
deriving DecidableEq, Repr

/-- `FileMonitor._on_file_change`: on `CHANGES_DONE_HINT`, read the file
and call `on_change` (for a `BrightnessMonitor`); nothing catches an
exception raised there, so it propagates to the caller. -/
def FileMonitor.on_file_change (max_brightness : ℤ) (st : BrightnessState)
    (eventType : FileMonitorEvent) (contents : String) :
    BrightnessState × Option PyErr :=
  if eventType = FileMonitorEvent.changesDoneHint then
    BrightnessMonitor.on_change max_brightness st contents
  else (st, none)

/-- `BrightnessMonitor.new_model`: `self._file.get_path()` first (an
`AttributeError` on `None` if the monitor was stopped), then the
`is_started` guard, then a `StatusModel` bound to `brightness`. -/
def BrightnessMonitor.new_model (levels : ℕ) (st : BrightnessState) :
    Except PyErr StatusModel :=
  match st.file with
  | none => Except.error PyErr.attributeError
  | some path =>
      if FileMonitor.is_started st = false then Except.error PyErr.valueError
      else Except.ok { name := "brightness-" ++ path, levels := levels,
                       value := st.brightness }

/-! ## PowerMonitor (src/klar/__init__.py) -/

/-- A UPower device proxy, reduced to its cached `Type` property
(`none` models an absent cached property). -/
structure Device where
  typ : Option ℤ
deriving DecidableEq, Repr

/-- The mutable state of a `PowerMonitor`: the AC and battery device
proxies and the `connected` property. -/
structure PowerState where
  ac : Option Device
  battery : Option Device
  connected : Bool
deriving DecidableEq, Repr

/-- `PowerMonitor.__init__`. -/
def PowerMonitor.init : PowerState :=
  { ac := none, battery := none, connected := false }

/-- The loop of `PowerMonitor._get_ac_and_battery_proxy`: keep the first
device with `Type == 1` as AC and the first with `Type == 2` as battery,
breaking once both are found. -/
def getAcAndBatteryAux : List Device → Option Device → Option Device →
    Option Device × Option Device
  | [], ac, bat => (ac, bat)
  | d :: rest, ac, bat =>
      let acBat :=
        if ac = none ∧ d.typ = some 1 then (some d, bat)
        else if bat = none ∧ d.typ = some 2 then (ac, some d)
        else (ac, bat)
      if acBat.1.isSome ∧ acBat.2.isSome then acBat
      else getAcAndBatteryAux rest acBat.1 acBat.2

/-- `PowerMonitor._get_ac_and_battery_proxy` over the enumerated
device list. -/
def getAcAndBattery (devices : List Device) : Option Device × Option Device :=
  getAcAndBatteryAux devices none none

/-- `PowerMonitor.do_start`: store both proxies (and connect the
`g-properties-changed` signal when the AC proxy exists). -/
def PowerMonitor.do_start (devices : List Device) (st : PowerState) : PowerState :=
  { st with ac := (getAcAndBattery devices).1, battery := (getAcAndBattery devices).2 }

/-- `PowerMonitor.is_started`: `self._dbus_ac_proxy is not None`. -/
def PowerMonitor.is_started (st : PowerState) : Bool :=
  st.ac.isSome

/-- `PowerMonitor.new_model`: guard on `is_started`, then a
`StatusModel("ac", levels=0)`. -/
def PowerMonitor.new_model (st : PowerState) : Except PyErr StatusModel :=
  if PowerMonitor.is_started st = false then Except.error PyErr.valueError
  else Except.ok { name := "ac", levels := 0, value := 0 }

/-! ## PulseAudioMonitor: property update on debounce-timer fire -/

/-- The three observable properties of a `PulseAudioMonitor`. -/
structure AudioState where
  mute : Bool
  volume : ℚ
  current_sink : String
deriving DecidableEq, Repr

/-- Default property values from the class definition. -/
def AudioState.init : AudioState :=
  { mute := false, volume := 0, current_sink := "" }

/-- The data read from `self._pulse_query.sink_default_get()`:
`sink.mute`, `sink.volume.value_flat`, `sink.name`. -/
structure Sink where
  mute : Bool
  value_flat : ℚ
  name : String
deriving DecidableEq, Repr

/-- Outcome of one `_on_pulse_event_timeout` body: the resulting
property state and how many times each property setter ran. -/
structure AudioUpdate where
  state : AudioState
  muteWrites : ℕ
  volumeWrites : ℕ
  sinkWrites : ℕ
deriving DecidableEq, Repr

/-- The `try`-body of `PulseAudioMonitor._on_pulse_event_timeout` after
the timer-table bookkeeping: query the default sink (which may raise),
then conditionally assign `mute`, `volume` and `current_sink`. -/
def pulseTimeoutBody (st : AudioState) (query : Except String Sink) :
    Except String AudioUpdate :=
  match query with
  | Except.error e => Except.error e
  | Except.ok sink =>
      Except.ok
        { state :=
            { mute :=
                if st.current_sink = "" ∨ st.mute ≠ sink.mute then sink.mute
                else st.mute
              volume :=
                if st.volume ≠ sink.value_flat then sink.value_flat else st.volume
              current_sink :=
                if st.current_sink ≠ sink.name then sink.name else st.current_sink }
          muteWrites := if st.current_sink = "" ∨ st.mute ≠ sink.mute then 1 else 0
          volumeWrites := if st.volume ≠ sink.value_flat then 1 else 0
          sinkWrites := if st.current_sink ≠ sink.name then 1 else 0 }

/-- `PulseAudioMonitor._on_pulse_event_timeout` (property view): the
whole body runs under `try ... except Exception: pass`, so a query
failure is swallowed and the properties are left untouched. -/
def pulseOnEventTimeout (st : AudioState) (query : Except String Sink) : AudioUpdate :=
  match pulseTimeoutBody st query with
  | Except.ok r => r
  | Except.error _ => { state := st, muteWrites := 0, volumeWrites := 0, sinkWrites := 0 }

/-! ## PulseAudioMonitor: debounce timer table

The timer table `self._timers` maps a device index to the id of a
pending GLib timeout source; `live` is the set of pending debounce
sources of the main loop (source id, callback argument), and `nextId`
models GLib's allocation of fresh (positive) source ids. -/

structure DebounceState where
  timers : List (ℕ × ℕ)
  live : List (ℕ × ℕ)
  nextId : ℕ
  queries : ℕ
deriving DecidableEq, Repr

/-- `dict.get(k)`. -/
def dictGet (d : List (ℕ × ℕ)) (k : ℕ) : Option ℕ :=
  (d.find? (fun p => p.1 = k)).map (fun p => p.2)

/-- `dict[k] = v` (replace an existing key in place, else append). -/
def dictSet : List (ℕ × ℕ) → ℕ → ℕ → List (ℕ × ℕ)
  | [], k, v => [(k, v)]
  | p :: rest, k, v => if p.1 = k then (k, v) :: rest else p :: dictSet rest k v

/-- `del dict[k]`. -/
def dictDel (d : List (ℕ × ℕ)) (k : ℕ) : List (ℕ × ℕ) :=
  d.filter (fun p => ¬ p.1 = k)

/-- Fresh `PulseAudioMonitor` timer table (`self._timers = {}`); GLib
source ids start at 1 (0 is never a valid id). -/
def DebounceState.init : DebounceState :=
  { timers := [], live := [], nextId := 1, queries := 0 }

/-- The cancellation step of `_on_pulse_event_change`:
`if index := self._timers.get(ev.index): GLib.source_remove(index)`
(the walrus test is Python truthiness, hence the `≠ 0` guard); removing
a source drops it from the pending set. -/
def cancelFrom (live : List (ℕ × ℕ)) : Option ℕ → List (ℕ × ℕ)
  | some id => if id ≠ 0 then live.filter (fun p => ¬ p.1 = id) else live
  | none => live

/-- See `cancelFrom`: cancellation against the current table entry. -/
def cancelPending (st : DebounceState) (index : ℕ) : List (ℕ × ℕ) :=
  cancelFrom st.live (dictGet st.timers index)

/-- `PulseAudioMonitor._on_pulse_event_change(ev)` (under the lock):
cancel the pending timer recorded for `ev.index`, if any, then
`self._timers[ev.index] = GLib.timeout_add(20, ..., ev.index)` with a
fresh source id. -/
def onPulseEventChange (st : DebounceState) (index : ℕ) : DebounceState :=
  { timers := dictSet st.timers index st.nextId
    live := cancelPending st index ++ [(st.nextId, index)]
    nextId := st.nextId + 1
    queries := st.queries }

/-- The timer-table part of `_on_pulse_event_timeout(index)`:
`del self._timers[index]` (a `KeyError` is swallowed by the surrounding
`except Exception`, skipping the query), then the default-sink query
runs (counted in `queries`). -/
def onPulseEventTimeoutTimers (st : DebounceState) (index : ℕ) : DebounceState :=
  if (dictGet st.timers index).isSome then
    { st with timers := dictDel st.timers index, queries := st.queries + 1 }
  else st

/-- The main loop fires the pending source `id` (a removed source never
fires): the loop drops the source (the callback returns `False`) and
runs the callback with its stored index argument. -/
def fireSource (st : DebounceState) (id : ℕ) : DebounceState :=
  match st.live.find? (fun p => p.1 = id) with
  | none => st
  | some p =>
      onPulseEventTimeoutTimers
        { st with live := st.live.filter (fun q => ¬ q.1 = id) } p.2

/-- `n` debounced events for the same device index, delivered before
any timer fires (a rapid burst within the 20 ms window). -/
def applyEvents (st : DebounceState) (index : ℕ) : ℕ → DebounceState
  | 0 => st
  | n + 1 => onPulseEventChange (applyEvents st index n) index

/-- Number of pending debounce sources registered for a given index. -/
def countLiveFor (st : DebounceState) (index : ℕ) : ℕ :=
  (st.live.filter (fun p => p.2 = index)).length

/-- Well-formedness of the shared timer table: pending source ids are
distinct, positive and below the allocator, and every pending source is
the one recorded in the table for its index. -/
def DebounceWF (st : DebounceState) : Prop :=
  (st.live.map Prod.fst).Nodup ∧
  (∀ p ∈ st.live, 0 < p.1 ∧ p.1 < st.nextId) ∧
  (∀ p ∈ st.live, dictGet st.timers p.2 = some p.1) ∧
  1 ≤ st.nextId

/-! ## PulseAudioMonitor: lifecycle -/

/-- Lifecycle state of a `PulseAudioMonitor`: `self._is_started` and
whether the listener thread is alive. -/
structure PulseState where
  levels : ℕ
  started : Bool
  threadAlive : Bool
deriving DecidableEq, Repr

/-- `PulseAudioMonitor.__init__(levels)`: connections created but not
connected, thread not started, `_is_started = False`. -/
def PulseAudioMonitor.init (levels : ℕ) : PulseState :=
  { levels := levels, started := false, threadAlive := false }

/-- `PulseAudioMonitor.do_start`: the `try` block (connect both
connections, set the event mask and callback, start the listener
thread) may raise — summarised by `connectResult` — but the `finally`
block sets `self._is_started = True` unconditionally; a raised
exception still propagates (second component). -/
def PulseAudioMonitor.do_start (st : PulseState)
    (connectResult : Except String Unit) : PulseState × Option String :=
  match connectResult with
  | Except.ok _ => ({ st with started := true, threadAlive := true }, none)
  | Except.error e => ({ st with started := true }, some e)

/-- `PulseAudioMonitor.is_started`: `self._is_started`. -/
def PulseAudioMonitor.is_started (st : PulseState) : Bool :=
  st.started

/-- `PulseAudioMonitor.new_model`: guard on the listener thread being
alive, then a `StatusModel("pulse", self.levels)`. -/
def PulseAudioMonitor.new_model (st : PulseState) : Except PyErr StatusModel :=
  if st.threadAlive = false then Except.error PyErr.valueError
  else Except.ok { name := "pulse", levels := st.levels, value := 0 }

/-- The `PulseAudioMonitor` lifecycle states reachable from the
constructor by calls to `do_start`. -/
inductive PulseReachable : PulseState → Prop
  | init (levels : ℕ) : PulseReachable (PulseAudioMonitor.init levels)
  | step (st : PulseState) (r : Except String Unit) :
      PulseReachable st → PulseReachable (PulseAudioMonitor.do_start st r).1

/-! ## GenericTransition (src/klar/__init__.py) -/

/-- The per-instance value bounds of a `GenericTransition`. -/
structure GenericTransition where
  initial : ℚ
  target : ℚ
deriving DecidableEq, Repr

/-- The externally observable effects of one `__call__` invocation:
values passed to `self.setter`, number of `self.method` invocations,
and whether `GLib.idle_add` was reached (scheduling the animation). -/
structure CallEffects where
  setterCalls : List ℚ
  methodCalls : ℕ
  idleScheduled : Bool
deriving DecidableEq, Repr

/-- `GenericTransition.__call__` (effect view): resolve `before` and
`duration`, swap the ramp direction when `not before`; with
`duration == 0` set the ramp target and run the action, returning
before any scheduling; otherwise (when `before`) pre-set the initial
value and run the action, and in every nonzero-duration case reach
`GLib.idle_add`. -/
def GenericTransition.call (tr : GenericTransition) (before : Bool)
    (duration : ℚ) : CallEffects :=
  let initial := if before then tr.initial else tr.target
  let target := if before then tr.target else tr.initial
  if duration = 0 then
    { setterCalls := [target], methodCalls := 1, idleScheduled := false }
  else if before then
    { setterCalls := [initial], methodCalls := 1, idleScheduled := true }
  else
    { setterCalls := [], methodCalls := 0, idleScheduled := true }

/-- Scheduler state of one `GenericTransition` instance:
`self._timer_id`, the number of queued `idle_add` closures from
pending invocations, the live 16 ms frame sources of this instance and
the GLib id allocator. -/
structure TransitionSched where
  timerId : Option ℕ
  pendingIdles : ℕ
  liveFrames : List ℕ
  nextId : ℕ
deriving DecidableEq, Repr

/-- Fresh instance: `self._timer_id = None`, nothing scheduled. -/
def TransitionSched.init : TransitionSched :=
  { timerId := none, pendingIdles := 0, liveFrames := [], nextId := 1 }

/-- Scheduler events for one transition instance. -/
inductive TransOp where
  | call
  | runIdle
  | frameFire (id : ℕ) (done : Bool)

/-- Scheduler semantics of `GenericTransition.__call__` with nonzero
duration: `call` queues the `idle_add` closure; `runIdle` runs it
(`if self._timer_id is not None: GLib.source_remove(self._timer_id)`,
then `self._timer_id = GLib.timeout_add(16, do_animation)`);
`frameFire id done` runs a live frame callback, which on completion
(`done`) sets `self._timer_id = None` and returns `False` (the loop
drops the source), and otherwise returns `True` (the source stays). -/
def stepTransition (st : TransitionSched) : TransOp → TransitionSched
  | TransOp.call => { st with pendingIdles := st.pendingIdles + 1 }
  | TransOp.runIdle =>
      if st.pendingIdles = 0 then st
      else
        let live1 :=
          match st.timerId with
          | some id => st.liveFrames.filter (fun x => ¬ x = id)
          | none => st.liveFrames
        { timerId := some st.nextId
          pendingIdles := st.pendingIdles - 1
          liveFrames := live1 ++ [st.nextId]
          nextId := st.nextId + 1 }
  | TransOp.frameFire id done =>
      if id ∈ st.liveFrames then
        if done then
          { st with liveFrames := st.liveFrames.filter (fun x => ¬ x = id),
                    timerId := none }
        else st
      else st

/-- Well-formedness of a transition scheduler state: the live frame
sources are exactly the one recorded in `self._timer_id` (if any), and
ids are below the allocator. -/
def TransitionWF (st : TransitionSched) : Prop :=
  (st.timerId = none ∧ st.liveFrames = []) ∨
  (∃ id, st.timerId = some id ∧ st.liveFrames = [id] ∧ id < st.nextId)

/-! # Theorems -/

/-! ### Arithmetic facts about `pyRound` -/

theorem floor_le_pyRound (x : ℚ) : ⌊x⌋ ≤ pyRound x := by
  unfold pyRound; split_ifs <;> omega

theorem pyRound_le_floor_add_one (x : ℚ) : pyRound x ≤ ⌊x⌋ + 1 := by
  unfold pyRound; split_ifs <;> omega

theorem pyRound_nonneg {x : ℚ} (hx : 0 ≤ x) : 0 ≤ pyRound x := by
  have h := floor_le_pyRound x
  have h2 : (0 : ℤ) ≤ ⌊x⌋ := Int.floor_nonneg.mpr hx
  omega

theorem pyRound_le_of_le_intCast {x : ℚ} {n : ℤ} (hx : x ≤ (n : ℚ)) :
    pyRound x ≤ n := by
  have hfl : ⌊x⌋ ≤ n := by
    have := Int.floor_le_floor hx
    simpa using this
  unfold pyRound
  split_ifs with h1 h2 h3
  · exact hfl
  · -- fractional part strictly positive: x is not an integer, so ⌊x⌋ < n
    have hfr : 0 < Int.fract x := lt_trans (by norm_num) h2
    have hne : ⌊x⌋ < n ∨ ⌊x⌋ = n := lt_or_eq_of_le hfl
    rcases hne with h | h
    · omega
    · exfalso
      have hxlt : (⌊x⌋ : ℚ) < x := by
        have hd : x - ⌊x⌋ = Int.fract x := Int.self_sub_floor x
        linarith
      rw [h] at hxlt
      exact absurd (lt_of_lt_of_le hxlt hx) (lt_irrefl _)
  · exact hfl
  · -- tie case with odd floor: fract = 1/2 > 0, same argument
    have hfr : Int.fract x = 1/2 := le_antisymm (not_lt.mp h2) (not_lt.mp h1)
    have hne : ⌊x⌋ < n ∨ ⌊x⌋ = n := lt_or_eq_of_le hfl
    rcases hne with h | h
    · omega
    · exfalso
      have hxlt : (⌊x⌋ : ℚ) < x := by
        have hd : x - ⌊x⌋ = Int.fract x := Int.self_sub_floor x
        rw [hfr] at hd
        linarith
      rw [h] at hxlt
      exact absurd (lt_of_lt_of_le hxlt hx) (lt_irrefl _)

theorem pyRound_mono {x y : ℚ} (h : x ≤ y) : pyRound x ≤ pyRound y := by
  have hfl : ⌊x⌋ ≤ ⌊y⌋ := Int.floor_le_floor h
  rcases lt_or_eq_of_le hfl with hlt | heq
  · have h1 := pyRound_le_floor_add_one x
    have h2 := floor_le_pyRound y
    omega
  · -- equal floors: compare fractional parts
    have hfr : Int.fract x ≤ Int.fract y := by
      have hdx : Int.fract x = x - ⌊x⌋ := (Int.self_sub_floor x).symm
      have hdy : Int.fract y = y - ⌊y⌋ := (Int.self_sub_floor y).symm
      rw [hdx, hdy, ← heq]
      linarith
    unfold pyRound
    rw [← heq]
    split_ifs <;> first | omega | linarith

theorem clamp01_nonneg (x : ℚ) : 0 ≤ clamp01 x := le_max_left _ _

theorem clamp01_le_one (x : ℚ) : clamp01 x ≤ 1 :=
  max_le (by norm_num) (min_le_left _ _)

theorem clamp01_mono {x y : ℚ} (h : x ≤ y) : clamp01 x ≤ clamp01 y :=
  max_le_max (le_refl 0) (min_le_min (le_refl 1) h)

/-! ### Counting the filled segments of `set_level` -/

theorem countP_setSegments (filled : ℤ) (warn : Bool) :
    ∀ (l : List StatusSegment) (i : ℕ),
      (setSegments filled warn i l).countP (fun s => s.active)
        = (min filled ((i : ℤ) + l.length) - i).toNat := by
  intro l
  induction l with
  | nil =>
      intro i
      simp only [setSegments, List.countP_nil, List.length_nil]
      omega
  | cons s rest ih =>
      intro i
      simp only [setSegments, List.countP_cons, ih (i + 1), List.length_cons]
      push_cast
      by_cases h : (i : ℤ) < filled <;> simp [h] <;> omega

theorem countActive_set_level (levels : ℕ) (level : ℚ) :
    countActive (StatusBar.set_level (StatusBar.init levels) level)
      = (pyRound (clamp01 level * levels)).toNat := by
  have h0 : 0 ≤ pyRound (clamp01 level * levels) :=
    pyRound_nonneg (mul_nonneg (clamp01_nonneg level) (by positivity))
  have hle : pyRound (clamp01 level * levels) ≤ (levels : ℤ) := by
    apply pyRound_le_of_le_intCast
    calc clamp01 level * levels ≤ 1 * levels := by
          exact mul_le_mul_of_nonneg_right (clamp01_le_one level) (by positivity)
      _ = ((levels : ℤ) : ℚ) := by push_cast; ring
  unfold countActive StatusBar.set_level StatusBar.init
  rw [countP_setSegments]
  simp only [List.length_replicate]
  omega

/-! ## Claim C1 -/

/-- C1 (counterexample): the claim is false as stated.  At
`level = 3/5`, `exponent = 1 > 0`, `levels = 16` the code's
filled-segment count from `StatusBar.set_level` is `10`
(`int(round(16 * 0.6))`), while the claimed formula
`floor(levels * level^(1/exponent))` yields `9`. -/
theorem C1_cex :
    countActive (StatusBar.set_level (StatusBar.init 16) (3/5)) = 10 ∧
    ⌊(16 : ℝ) * (3/5 : ℝ) ^ ((1 : ℝ) / (1 : ℝ))⌋ = 9 ∧
    (10 : ℤ) ≠ 9 := by
  refine ⟨?_, ?_, by norm_num⟩
  · rw [countActive_set_level]
    have hc : clamp01 (3/5 : ℚ) = 3/5 := by
      unfold clamp01
      rw [min_eq_right (by norm_num), max_eq_right (by norm_num)]
    have hm : clamp01 (3/5 : ℚ) * ((16 : ℕ) : ℚ) = 48/5 := by
      rw [hc]; norm_num
    rw [hm]
    have hfl : ⌊(48/5 : ℚ)⌋ = 9 := by
      rw [Int.floor_eq_iff] <;> norm_num
    have hfr : Int.fract (48/5 : ℚ) = 3/5 := by
      simp [Int.fract, hfl]; norm_num
    unfold pyRound
    rw [hfl, hfr]
    norm_num
    rfl
  · have h1 : ((1 : ℝ) / (1 : ℝ)) = 1 := by norm_num
    rw [h1, Real.rpow_one]
    rw [show (16 : ℝ) * (3/5 : ℝ) = 48/5 by norm_num]
    rw [Int.floor_eq_iff] <;> norm_num

/-- C1 (amended): for every `level` and every `levels`, the
filled-segment count computed by `StatusBar.set_level` equals
`round(levels * clamp(level, 0, 1))` with Python's round-half-to-even;
the count is monotonically non-decreasing in `level`.  No exponent warp
is applied anywhere in the code (the configured `exponent` is unused);
end to end, the brightness value for file content `"128"` with maximum
`255` is `128/255` and the filled-segment count for it with 16 levels
is `8` (not 11). -/
theorem C1_thm (levels : ℕ) (l1 l2 : ℚ) (h : l1 ≤ l2) :
    countActive (StatusBar.set_level (StatusBar.init levels) l1)
        = (pyRound (clamp01 l1 * levels)).toNat ∧
    countActive (StatusBar.set_level (StatusBar.init levels) l1)
        ≤ countActive (StatusBar.set_level (StatusBar.init levels) l2) ∧
    (BrightnessMonitor.on_change 255 (BrightnessMonitor.init "bl") "128").2 = none ∧
    (BrightnessMonitor.on_change 255 (BrightnessMonitor.init "bl") "128").1.brightness
        = 128/255 ∧
    countActive (StatusBar.set_level (StatusBar.init 16) (128/255)) = 8 := by
  refine ⟨countActive_set_level levels l1, ?_, ?_, ?_, ?_⟩
  · rw [countActive_set_level, countActive_set_level]
    exact Int.toNat_le_toNat
      (pyRound_mono (mul_le_mul_of_nonneg_right (clamp01_mono h) (by positivity)))
  · have hp : pyParseInt "128" = some 128 := rfl
    simp [BrightnessMonitor.on_change, hp]
  · have hp : pyParseInt "128" = some 128 := rfl
    simp [BrightnessMonitor.on_change, hp, BrightnessMonitor.init]
  · rw [countActive_set_level]
    have hc : clamp01 (128/255 : ℚ) = 128/255 := by
      unfold clamp01
      rw [min_eq_right (by norm_num), max_eq_right (by norm_num)]
    have hm : clamp01 (128/255 : ℚ) * ((16 : ℕ) : ℚ) = 2048/255 := by
      rw [hc]; norm_num
    rw [hm]
    have hfl : ⌊(2048/255 : ℚ)⌋ = 8 := by
      rw [Int.floor_eq_iff] <;> norm_num
    have hfr : Int.fract (2048/255 : ℚ) = 8/255 := by
      simp [Int.fract, hfl]; norm_num
    unfold pyRound
    rw [hfl, hfr]
    norm_num
    rfl

/-- C1 witness: the amended theorem applied at `levels = 16`,
`l1 = 1/4`, `l2 = 1/2`. -/
theorem C1_wit :
    ((1 : ℚ)/4 ≤ 1/2) ∧
    (countActive (StatusBar.set_level (StatusBar.init 16) (1/4))
        = (pyRound (clamp01 (1/4) * ((16 : ℕ) : ℚ))).toNat ∧
     countActive (StatusBar.set_level (StatusBar.init 16) (1/4))
        ≤ countActive (StatusBar.set_level (StatusBar.init 16) (1/2)) ∧
     (BrightnessMonitor.on_change 255 (BrightnessMonitor.init "bl") "128").2 = none ∧
     (BrightnessMonitor.on_change 255 (BrightnessMonitor.init "bl") "128").1.brightness
        = 128/255 ∧
     countActive (StatusBar.set_level (StatusBar.init 16) (128/255)) = 8) :=
  ⟨by norm_num, C1_thm 16 (1/4) (1/2) (by norm_num)⟩

/-! ## Claim C6 -/

/-- C6 (confirmed): a `GenericTransition` invocation whose resolved
duration is zero calls the setter synchronously exactly once with the
ramp's target value (`self.target` when `before`, `self.initial`
otherwise, i.e. the local `target` after the direction swap), invokes
the wrapped action exactly once, and returns without reaching
`GLib.idle_add`: no callback is scheduled or left pending. -/
theorem C6_thm (tr : GenericTransition) (before : Bool) (duration : ℚ)
    (h : duration = 0) :
    GenericTransition.call tr before duration =
      { setterCalls := [if before then tr.target else tr.initial],
        methodCalls := 1, idleScheduled := false } := by
  subst h
  simp [GenericTransition.call]

/-- C6 witness: a concrete zero-duration invocation. -/
theorem C6_wit :
    ((0 : ℚ) = 0) ∧
    GenericTransition.call { initial := 1/100, target := 1 } true 0 =
      { setterCalls := [if true then (1 : ℚ) else 1/100],
        methodCalls := 1, idleScheduled := false } :=
  ⟨rfl, C6_thm { initial := 1/100, target := 1 } true 0 rfl⟩

/-! ## Claim C7 -/

/-- C7 (confirmed): when the default-sink query raises during a
debounce-timer fire, `_on_pulse_event_timeout` swallows the exception
(`except Exception: pass`), performs no property write, and leaves
`mute`, `volume` and `current_sink` exactly as they were. -/
theorem C7_thm (st : AudioState) (e : String) :
    pulseOnEventTimeout st (Except.error e) =
      { state := st, muteWrites := 0, volumeWrites := 0, sinkWrites := 0 } :=
  rfl

/-! ## Claim C8 -/

/-- C8 (confirmed): for every string that `int()` cannot parse, a
`CHANGES_DONE_HINT` file-change notification makes
`BrightnessMonitor.on_change` raise a `ValueError` that propagates
uncaught through `FileMonitor._on_file_change`, and the `brightness`
property keeps the value it had before the call. -/
theorem C8_thm (max_brightness : ℤ) (st : BrightnessState) (data : String)
    (h : pyParseInt data = none) :
    FileMonitor.on_file_change max_brightness st
        FileMonitorEvent.changesDoneHint data
      = (st, some PyErr.valueError) := by
  unfold FileMonitor.on_file_change BrightnessMonitor.on_change
  simp [h]

/-- C8 witness: the non-integer content `"not-a-number"`. -/
theorem C8_wit :
    pyParseInt "not-a-number" = none ∧
    FileMonitor.on_file_change 255 (BrightnessMonitor.init "bl")
        FileMonitorEvent.changesDoneHint "not-a-number"
      = (BrightnessMonitor.init "bl", some PyErr.valueError) :=
  ⟨rfl, C8_thm 255 (BrightnessMonitor.init "bl") "not-a-number" rfl⟩

/-! ## Claim C10 -/

/-- C10 (confirmed): `PulseAudioMonitor.do_start` sets `_is_started` in
a `finally` block, so after a failed start `is_started()` is `true`
while the exception still propagates and the listener thread was never
started; in particular, from the constructor state a failing start
leaves the thread dead with `is_started()` `true`. -/
theorem C10_thm (st : PulseState) (e : String) :
    PulseAudioMonitor.is_started
        (PulseAudioMonitor.do_start st (Except.error e)).1 = true ∧
    (PulseAudioMonitor.do_start st (Except.error e)).2 = some e ∧
    (PulseAudioMonitor.do_start st (Except.error e)).1.threadAlive
        = st.threadAlive ∧
    PulseAudioMonitor.is_started
        (PulseAudioMonitor.do_start (PulseAudioMonitor.init 16)
          (Except.error e)).1 = true ∧
    (PulseAudioMonitor.do_start (PulseAudioMonitor.init 16)
        (Except.error e)).1.threadAlive = false :=
  ⟨rfl, rfl, rfl, rfl, rfl⟩

/-! ## Claim C4 -/

/-- C4 (counterexample): the claim is false as stated.  From the
default state (`current_sink = ""`, `mute = False`), a successful query
returning an unmuted sink re-assigns `mute` (one write) even though the
freshly queried mute equals the stored value, because the condition is
`self.current_sink == "" or self.mute != sink.mute`. -/
theorem C4_cex :
    (pulseOnEventTimeout AudioState.init
        (Except.ok { mute := false, value_flat := 0, name := "sink0" })).muteWrites
      = 1 ∧
    AudioState.init.mute
      = (Sink.mute { mute := false, value_flat := 0, name := "sink0" }) :=
  ⟨rfl, rfl⟩

/-- C4 (amended): on a debounce-timer fire with a successful query,
`volume` and `current_sink` are written only if the queried value
differs from the stored one, while `mute` is written when the stored
`current_sink` is empty or the queried mute differs — so an unchanged
mute can still be re-assigned on the first successful query.  After the
update the three properties always hold the queried values. -/
theorem C4_thm (st : AudioState) (sink : Sink) :
    ((pulseOnEventTimeout st (Except.ok sink)).volumeWrites = 0
        ↔ st.volume = sink.value_flat) ∧
    ((pulseOnEventTimeout st (Except.ok sink)).sinkWrites = 0
        ↔ st.current_sink = sink.name) ∧
    ((pulseOnEventTimeout st (Except.ok sink)).muteWrites = 0
        ↔ (st.current_sink ≠ "" ∧ st.mute = sink.mute)) ∧
    (pulseOnEventTimeout st (Except.ok sink)).state
      = { mute := sink.mute, volume := sink.value_flat,
          current_sink := sink.name } := by
  simp only [pulseOnEventTimeout, pulseTimeoutBody]
  refine ⟨?_, ?_, ?_, ?_⟩
  · split_ifs with h <;> simp_all
  · split_ifs with h1 <;> simp_all
  · split_ifs with h1 <;> simp_all <;> tauto
  · simp only [AudioState.mk.injEq]
    refine ⟨?_, ?_, ?_⟩ <;> split_ifs <;> simp_all

/-! ## Claim C5 -/

/-- C5 (counterexample): the claim is false as stated.  With a device
list containing only an AC adapter (`Type == 1`), `do_start` obtains no
battery proxy, yet `is_started()` returns `true` (it only checks
`self._dbus_ac_proxy is not None`). -/
theorem C5_cex :
    (PowerMonitor.do_start [{ typ := some 1 }] PowerMonitor.init).battery
      = none ∧
    PowerMonitor.is_started
        (PowerMonitor.do_start [{ typ := some 1 }] PowerMonitor.init) = true :=
  ⟨rfl, rfl⟩

/-- C5 (amended): after `PowerMonitor.do_start`, `is_started()` returns
`true` exactly when the enumerated device list contains a device whose
cached `Type` is 1 (an AC adapter); whether a battery proxy was found
has no effect on `is_started()`. -/
theorem C5_thm (devices : List Device) (st : PowerState) :
    PowerMonitor.is_started (PowerMonitor.do_start devices st) = true
      ↔ ∃ d ∈ devices, d.typ = some 1 := by
  have haux : ∀ (l : List Device) (ac bat : Option Device),
      ((getAcAndBatteryAux l ac bat).1.isSome = true
        ↔ (ac.isSome = true ∨ ∃ d ∈ l, d.typ = some 1)) := by
    intro l
    induction l with
    | nil => intro ac bat; simp [getAcAndBatteryAux]
    | cons d rest ih =>
        intro ac bat
        simp only [getAcAndBatteryAux]
        split_ifs with h1 h2 h3 h4 h5 <;>
          simp_all [List.mem_cons, Option.isSome_iff_ne_none] <;> tauto
  unfold PowerMonitor.is_started PowerMonitor.do_start getAcAndBattery
  simpa using haux devices none none

/-! ## Claim C9 -/

/-- C9 (counterexample): the claim is false as stated.  A freshly
constructed `BrightnessMonitor` on which `start()` was never called
(no file monitor connected) still has `_file` set, so `new_model()`
raises nothing and returns a `StatusModel`. -/
theorem C9_cex :
    (BrightnessMonitor.init "/sys/class/backlight/b/brightness").monitorConnected
      = false ∧
    BrightnessMonitor.new_model 16
        (BrightnessMonitor.init "/sys/class/backlight/b/brightness")
      = Except.ok { name := "brightness-" ++ "/sys/class/backlight/b/brightness",
                    levels := 16, value := 0 } :=
  ⟨rfl, rfl⟩

/-- A reachable `PulseAudioMonitor` whose `_is_started` flag is unset
never ran `do_start`, so its listener thread is not alive. -/
theorem pulse_not_started_thread_dead {st : PulseState}
    (hr : PulseReachable st) (hs : st.started = false) :
    st.threadAlive = false := by
  induction hr with
  | init levels => rfl
  | step st r _ => cases r <;> simp [PulseAudioMonitor.do_start] at hs

/-- C9 (amended): for each concrete monitor variant, calling
`new_model()` while `is_started()` is `false` raises an error and no
`StatusModel` is returned: `BrightnessMonitor` raises an
`AttributeError` (from `None.get_path()`), `PowerMonitor` a
`ValueError`, and a reachable `PulseAudioMonitor` a `ValueError`
(its listener thread is not alive).  (A `BrightnessMonitor` that was
merely never started has `is_started() == True` and returns a model —
see the counterexample.) -/
theorem C9_thm (levels : ℕ) (bst : BrightnessState) (pst : PowerState)
    (ast : PulseState)
    (hb : FileMonitor.is_started bst = false)
    (hp : PowerMonitor.is_started pst = false)
    (hr : PulseReachable ast)
    (hs : PulseAudioMonitor.is_started ast = false) :
    BrightnessMonitor.new_model levels bst = Except.error PyErr.attributeError ∧
    PowerMonitor.new_model pst = Except.error PyErr.valueError ∧
    PulseAudioMonitor.new_model ast = Except.error PyErr.valueError := by
  refine ⟨?_, ?_, ?_⟩
  · cases hfile : bst.file with
    | none => simp [BrightnessMonitor.new_model, hfile]
    | some p =>
        exfalso
        unfold FileMonitor.is_started at hb
        rw [hfile] at hb
        simp at hb
  · simp [PowerMonitor.new_model, hp]
  · have hdead : ast.threadAlive = false :=
      pulse_not_started_thread_dead hr hs
    simp [PulseAudioMonitor.new_model, hdead]

/-- C9 witness: a stopped brightness monitor, a fresh power monitor and
a fresh pulse monitor. -/
theorem C9_wit :
    FileMonitor.is_started
        { file := none, monitorConnected := false, brightness := 0 } = false ∧
    PowerMonitor.is_started PowerMonitor.init = false ∧
    PulseAudioMonitor.is_started (PulseAudioMonitor.init 16) = false ∧
    (BrightnessMonitor.new_model 16
        { file := none, monitorConnected := false, brightness := 0 }
        = Except.error PyErr.attributeError ∧
     PowerMonitor.new_model PowerMonitor.init = Except.error PyErr.valueError ∧
     PulseAudioMonitor.new_model (PulseAudioMonitor.init 16)
        = Except.error PyErr.valueError) :=
  ⟨rfl, rfl, rfl,
    C9_thm 16 { file := none, monitorConnected := false, brightness := 0 }
      PowerMonitor.init (PulseAudioMonitor.init 16) rfl rfl
      (PulseReachable.init 16) rfl⟩

/-! ## Claim C3 -/

/-- Every scheduler event of one `GenericTransition` instance preserves
the frame-callback invariant. -/
theorem stepTransition_WF {st : TransitionSched} (h : TransitionWF st)
    (op : TransOp) : TransitionWF (stepTransition st op) := by
  cases op with
  | call =>
      rcases h with ⟨h1, h2⟩ | ⟨id, h1, h2, h3⟩
      · exact Or.inl ⟨h1, h2⟩
      · exact Or.inr ⟨id, h1, h2, h3⟩
  | runIdle =>
      by_cases hp : st.pendingIdles = 0
      · simpa [stepTransition, hp] using h
      · rcases h with ⟨h1, h2⟩ | ⟨id, h1, h2, h3⟩
        · exact Or.inr ⟨st.nextId, by simp [stepTransition, hp, h1, h2]⟩
        · exact Or.inr ⟨st.nextId, by simp [stepTransition, hp, h1, h2]⟩
  | frameFire id done =>
      rcases h with ⟨h1, h2⟩ | ⟨id', h1, h2, h3⟩
      · simpa [stepTransition, h2] using Or.inl ⟨h1, h2⟩
      · by_cases hmem : id ∈ st.liveFrames
        · rw [h2] at hmem
          simp only [List.mem_singleton] at hmem
          rw [hmem]
          by_cases hd : done
          · subst hd
            exact Or.inl (by simp [stepTransition, h2])
          · simp only [Bool.not_eq_true] at hd
            subst hd
            exact Or.inr ⟨id', by simpa [stepTransition, h2] using ⟨h1, h3⟩⟩
        · have : stepTransition st (TransOp.frameFire id done) = st := by
            simp [stepTransition, hmem]
          rw [this]
          exact Or.inr ⟨id', h1, h2, h3⟩

/-- C3 (confirmed): for a well-formed `GenericTransition` scheduler
state, every event (a new invocation, its queued `idle_add` closure
running, a frame callback firing) preserves well-formedness; at most
one frame callback of the instance is live at any time; and when the
queued closure of a re-invocation runs while a previous frame source
`id` is still scheduled, the closure removes `id` before scheduling the
fresh source, leaving exactly the fresh one live. -/
theorem C3_thm (st : TransitionSched) (h : TransitionWF st) :
    (∀ op, TransitionWF (stepTransition st op)) ∧
    st.liveFrames.length ≤ 1 ∧
    (∀ id, st.timerId = some id → 1 ≤ st.pendingIdles →
      (stepTransition st TransOp.runIdle).liveFrames = [st.nextId] ∧
      id ∉ (stepTransition st TransOp.runIdle).liveFrames) := by
  refine ⟨fun op => stepTransition_WF h op, ?_, ?_⟩
  · rcases h with ⟨_, h2⟩ | ⟨id, _, h2, _⟩ <;> simp [h2]
  · intro id hid hp
    rcases h with ⟨h1, _⟩ | ⟨id', h1, h2, h3⟩
    · rw [hid] at h1; cases h1
    · rw [hid] at h1
      injection h1 with he
      subst he
      have hp0 : ¬ st.pendingIdles = 0 := by omega
      constructor
      · simp [stepTransition, hp0, hid, h2]
      · simp only [stepTransition, hp0, if_false, hid, h2]
        simp
        omega

/-- C3 witness: a state with one in-flight frame source and one queued
re-invocation. -/
theorem C3_wit :
    TransitionWF
      { timerId := some 1, pendingIdles := 1, liveFrames := [1], nextId := 2 } ∧
    ((∀ op, TransitionWF (stepTransition
        { timerId := some 1, pendingIdles := 1, liveFrames := [1], nextId := 2 }
        op)) ∧
     (TransitionSched.liveFrames
        { timerId := some 1, pendingIdles := 1, liveFrames := [1], nextId := 2 }).length
          ≤ 1 ∧
     (∀ id, TransitionSched.timerId
          { timerId := some 1, pendingIdles := 1, liveFrames := [1], nextId := 2 }
            = some id →
        1 ≤ TransitionSched.pendingIdles
          { timerId := some 1, pendingIdles := 1, liveFrames := [1], nextId := 2 } →
        (stepTransition
          { timerId := some 1, pendingIdles := 1, liveFrames := [1], nextId := 2 }
          TransOp.runIdle).liveFrames = [2] ∧
        id ∉ (stepTransition
          { timerId := some 1, pendingIdles := 1, liveFrames := [1], nextId := 2 }
          TransOp.runIdle).liveFrames)) :=
  ⟨Or.inr ⟨1, rfl, rfl, by norm_num⟩,
   C3_thm { timerId := some 1, pendingIdles := 1, liveFrames := [1], nextId := 2 }
     (Or.inr ⟨1, rfl, rfl, by norm_num⟩)⟩

/-! ## Claim C2: dictionary lemmas -/

theorem dictGet_cons_self {p : ℕ × ℕ} {rest : List (ℕ × ℕ)} {k : ℕ}
    (h : p.1 = k) : dictGet (p :: rest) k = some p.2 := by
  unfold dictGet
  rw [List.find?_cons_of_pos _ (by simpa using h)]
  rfl

theorem dictGet_cons_ne {p : ℕ × ℕ} {rest : List (ℕ × ℕ)} {k : ℕ}
    (h : ¬ p.1 = k) : dictGet (p :: rest) k = dictGet rest k := by
  unfold dictGet
  rw [List.find?_cons_of_neg _ (by simpa using h)]

theorem dictGet_dictSet_self (d : List (ℕ × ℕ)) (k v : ℕ) :
    dictGet (dictSet d k v) k = some v := by
  induction d with
  | nil => simp [dictSet, dictGet_cons_self (p := (k, v)) rfl]
  | cons p rest ih =>
      by_cases h : p.1 = k
      · rw [show dictSet (p :: rest) k v = (k, v) :: rest by
              simp [dictSet, h]]
        exact dictGet_cons_self rfl
      · rw [show dictSet (p :: rest) k v = p :: dictSet rest k v by
              simp [dictSet, h]]
        rw [dictGet_cons_ne h]
        exact ih

theorem dictGet_dictSet_ne (d : List (ℕ × ℕ)) (k k' v : ℕ) (h : ¬ k' = k) :
    dictGet (dictSet d k v) k' = dictGet d k' := by
  have hkk : ¬ (k, v).1 = k' := fun he => h (by simpa using he.symm)
  induction d with
  | nil =>
      show dictGet [(k, v)] k' = dictGet [] k'
      rw [dictGet_cons_ne hkk]
  | cons p rest ih =>
      by_cases hp : p.1 = k
      · rw [show dictSet (p :: rest) k v = (k, v) :: rest by
              simp [dictSet, hp]]
        rw [dictGet_cons_ne hkk]
        have hp' : ¬ p.1 = k' := by
          rw [hp]; exact fun he => h he.symm
        rw [dictGet_cons_ne hp']
      · rw [show dictSet (p :: rest) k v = p :: dictSet rest k v by
              simp [dictSet, hp]]
        by_cases hp' : p.1 = k'
        · rw [dictGet_cons_self hp', dictGet_cons_self hp']
        · rw [dictGet_cons_ne hp', dictGet_cons_ne hp']
          exact ih

theorem dictGet_dictDel_self (d : List (ℕ × ℕ)) (k : ℕ) :
    dictGet (dictDel d k) k = none := by
  unfold dictGet dictDel
  rw [List.find?_eq_none.mpr]
  · rfl
  · intro p hp
    rw [List.mem_filter] at hp
    simpa using hp.2

theorem dictGet_dictDel_ne (d : List (ℕ × ℕ)) (k k' : ℕ) (h : ¬ k' = k) :
    dictGet (dictDel d k) k' = dictGet d k' := by
  induction d with
  | nil => rfl
  | cons p rest ih =>
      by_cases hp : p.1 = k
      · rw [show dictDel (p :: rest) k = dictDel rest k by
              simp [dictDel, List.filter_cons, hp]]
        have hp' : ¬ p.1 = k' := by rw [hp]; exact fun he => h he.symm
        rw [dictGet_cons_ne hp']
        exact ih
      · rw [show dictDel (p :: rest) k = p :: dictDel rest k by
              simp [dictDel, List.filter_cons, hp]]
        by_cases hp' : p.1 = k'
        · rw [dictGet_cons_self hp', dictGet_cons_self hp']
        · rw [dictGet_cons_ne hp', dictGet_cons_ne hp']
          exact ih

/-! ## Claim C2: cancellation lemmas -/

theorem cancelPending_sublist (st : DebounceState) (i : ℕ) :
    (cancelPending st i).Sublist st.live := by
  unfold cancelPending
  cases dictGet st.timers i with
  | none => exact List.Sublist.refl _
  | some id0 =>
      simp only [cancelFrom]
      by_cases h0 : id0 ≠ 0
      · rw [if_pos h0]; exact List.filter_sublist _
      · rw [if_neg h0]

theorem mem_of_mem_cancelPending {st : DebounceState} {i : ℕ} {p : ℕ × ℕ}
    (hp : p ∈ cancelPending st i) : p ∈ st.live :=
  (cancelPending_sublist st i).mem hp

theorem cancelPending_no_index (st : DebounceState) (h : DebounceWF st) (i : ℕ) :
    ∀ p ∈ cancelPending st i, ¬ p.2 = i := by
  obtain ⟨hnd, hbd, hdict, hpos⟩ := h
  intro p hp hpi
  unfold cancelPending at hp
  cases hget : dictGet st.timers i with
  | none =>
      rw [hget] at hp
      simp only [cancelFrom] at hp
      have hd := hdict p hp
      rw [hpi, hget] at hd
      cases hd
  | some id0 =>
      rw [hget] at hp
      simp only [cancelFrom] at hp
      by_cases h0 : id0 ≠ 0
      · rw [if_pos h0, List.mem_filter] at hp
        obtain ⟨hpl, hpf⟩ := hp
        have hd := hdict p hpl
        rw [hpi, hget] at hd
        injection hd with he
        simp at hpf
        exact hpf he.symm
      · rw [if_neg h0] at hp
        push_neg at h0
        have hd := hdict p hp
        rw [hpi, hget] at hd
        injection hd with he
        have := (hbd p hp).1
        omega

/-! ## Claim C2: event and fire semantics -/

theorem onPulseEventChange_spec (st : DebounceState) (h : DebounceWF st)
    (i : ℕ) :
    DebounceWF (onPulseEventChange st i) ∧
    (onPulseEventChange st i).nextId = st.nextId + 1 ∧
    (onPulseEventChange st i).queries = st.queries ∧
    ((st.nextId, i) ∈ (onPulseEventChange st i).live) ∧
    (∀ p ∈ (onPulseEventChange st i).live, p.2 = i → p.1 = st.nextId) ∧
    (∀ p ∈ (onPulseEventChange st i).live, ¬ p = (st.nextId, i) → p ∈ st.live) := by
  have hsub : ∀ p ∈ cancelPending st i, p ∈ st.live :=
    fun p hp => mem_of_mem_cancelPending hp
  have hnoi : ∀ p ∈ cancelPending st i, ¬ p.2 = i :=
    cancelPending_no_index st h i
  obtain ⟨hnd, hbd, hdict, hpos⟩ := h
  refine ⟨⟨?_, ?_, ?_, ?_⟩, rfl, rfl, ?_, ?_, ?_⟩
  · -- Nodup of the new pending source ids
    show ((cancelPending st i ++ [(st.nextId, i)]).map Prod.fst).Nodup
    rw [List.map_append, List.nodup_append]
    refine ⟨((cancelPending_sublist st i).map Prod.fst).nodup hnd, ?_, ?_⟩
    · simp
    · intro a ha
      rw [List.mem_map] at ha
      obtain ⟨p, hp, hpa⟩ := ha
      have := (hbd p (hsub p hp)).2
      simp only [List.map_cons, List.map_nil, List.mem_singleton]
      intro hcon
      rw [hcon] at hpa
      omega
  · -- all ids positive and below the new allocator value
    intro p hp
    rcases List.mem_append.mp hp with hp1 | hp1
    · have := hbd p (hsub p hp1)
      show 0 < p.1 ∧ p.1 < st.nextId + 1
      omega
    · rw [List.mem_singleton] at hp1
      subst hp1
      show 0 < st.nextId ∧ st.nextId < st.nextId + 1
      omega
  · -- every pending source is the one recorded in the table
    intro p hp
    rcases List.mem_append.mp hp with hp1 | hp1
    · show dictGet (dictSet st.timers i st.nextId) p.2 = some p.1
      rw [dictGet_dictSet_ne st.timers i p.2 st.nextId (hnoi p hp1)]
      exact hdict p (hsub p hp1)
    · rw [List.mem_singleton] at hp1
      subst hp1
      show dictGet (dictSet st.timers i st.nextId) i = some st.nextId
      exact dictGet_dictSet_self st.timers i st.nextId
  · show 1 ≤ st.nextId + 1
    omega
  · exact List.mem_append_right _ (List.mem_singleton.mpr rfl)
  · intro p hp hpi
    rcases List.mem_append.mp hp with hp1 | hp1
    · exact absurd hpi (hnoi p hp1)
    · rw [List.mem_singleton] at hp1
      subst hp1
      rfl
  · intro p hp hne
    rcases List.mem_append.mp hp with hp1 | hp1
    · exact hsub p hp1
    · rw [List.mem_singleton] at hp1
      exact absurd hp1 hne

theorem find?_of_mem_nodup {l : List (ℕ × ℕ)} (hnd : (l.map Prod.fst).Nodup)
    {id i : ℕ} (hmem : (id, i) ∈ l) :
    l.find? (fun p => p.1 = id) = some (id, i) := by
  induction l with
  | nil => cases hmem
  | cons q rest ih =>
      rw [List.map_cons, List.nodup_cons] at hnd
      obtain ⟨hq, hrest⟩ := hnd
      rcases List.mem_cons.mp hmem with heq | hmem'
      · rw [← heq]
        simp [List.find?_cons]
      · have hqid : ¬ q.1 = id := by
          intro hcon
          apply hq
          rw [hcon]
          exact List.mem_map_of_mem Prod.fst hmem'
        simpa [List.find?_cons, hqid] using ih hrest hmem'

theorem fireSource_queries (st : DebounceState) (h : DebounceWF st)
    {id i : ℕ} (hmem : (id, i) ∈ st.live) :
    (fireSource st id).queries = st.queries + 1 := by
  obtain ⟨hnd, hbd, hdict, hpos⟩ := h
  unfold fireSource
  rw [find?_of_mem_nodup hnd hmem]
  unfold onPulseEventTimeoutTimers
  have hd : dictGet st.timers i = some id := hdict (id, i) hmem
  simp [hd]

theorem fireSource_of_not_live (st : DebounceState) {id : ℕ}
    (h : ∀ p ∈ st.live, ¬ p.1 = id) : fireSource st id = st := by
  unfold fireSource
  rw [List.find?_eq_none.mpr (by simpa using h)]

theorem fireSource_WF (st : DebounceState) (h : DebounceWF st) (id : ℕ) :
    DebounceWF (fireSource st id) := by
  unfold fireSource
  cases hf : st.live.find? (fun p => p.1 = id) with
  | none => exact h
  | some p =>
      have hpl : p ∈ st.live := List.mem_of_find?_eq_some hf
      have hpid : p.1 = id := by simpa using List.find?_some hf
      obtain ⟨hnd, hbd, hdict, hpos⟩ := h
      unfold onPulseEventTimeoutTimers
      have hd : dictGet st.timers p.2 = some p.1 := hdict p hpl
      have hds : (dictGet st.timers p.2).isSome = true := by rw [hd]; rfl
      simp only [hds, if_true]
      refine ⟨?_, ?_, ?_, hpos⟩
      · exact ((List.filter_sublist st.live).map Prod.fst).nodup hnd
      · intro q hq
        exact hbd q ((List.filter_sublist st.live).mem hq)
      · intro q hq
        rw [List.mem_filter] at hq
        obtain ⟨hql, hqf⟩ := hq
        have hq2 : ¬ q.2 = p.2 := by
          intro hcon
          have hdq := hdict q hql
          rw [hcon, hd] at hdq
          injection hdq with he
          simp at hqf
          rw [hpid] at he
          exact hqf he.symm
        show dictGet (dictDel st.timers p.2) q.2 = some q.1
        rw [dictGet_dictDel_ne st.timers p.2 q.2 hq2]
        exact hdict q hql

/-! ## Claim C2: at most one pending timer per index -/

theorem length_filter_le_one_fst (j a : ℕ) :
    ∀ (l : List (ℕ × ℕ)), (l.map Prod.fst).Nodup →
      (∀ p ∈ l, p.2 = j → p.1 = a) →
      (l.filter (fun p => p.2 = j)).length ≤ 1 := by
  intro l
  induction l with
  | nil => intro _ _; simp
  | cons q rest ih =>
      intro hnd hall
      rw [List.map_cons, List.nodup_cons] at hnd
      obtain ⟨hq, hrest⟩ := hnd
      by_cases hqj : q.2 = j
      · have hqa : q.1 = a := hall q (List.mem_cons_self _ _) hqj
        have hre : rest.filter (fun p => p.2 = j) = [] := by
          rw [List.filter_eq_nil_iff]
          intro p hp
          simp only [decide_eq_true_eq]
          intro hpj
          have hpa : p.1 = a := hall p (List.mem_cons_of_mem _ hp) hpj
          exact hq (by rw [hqa, ← hpa]; exact List.mem_map_of_mem Prod.fst hp)
        simp [List.filter_cons, hqj, hre]
      · have := ih hrest (fun p hp => hall p (List.mem_cons_of_mem _ hp))
        simpa [List.filter_cons, hqj] using this

theorem countLiveFor_le_one (st : DebounceState) (h : DebounceWF st) (j : ℕ) :
    countLiveFor st j ≤ 1 := by
  obtain ⟨hnd, hbd, hdict, hpos⟩ := h
  unfold countLiveFor
  cases hget : dictGet st.timers j with
  | none =>
      have hempty : st.live.filter (fun p => p.2 = j) = [] := by
        rw [List.filter_eq_nil_iff]
        intro p hp
        simp only [decide_eq_true_eq]
        intro hpj
        have hd := hdict p hp
        rw [hpj, hget] at hd
        cases hd
      simp [hempty]
  | some a =>
      refine length_filter_le_one_fst j a st.live hnd ?_
      intro p hp hpj
      have hd := hdict p hp
      rw [hpj, hget] at hd
      injection hd with he
      exact he.symm

/-! ## Claim C2: a rapid burst of events for one index -/

theorem applyEvents_spec (st : DebounceState) (h : DebounceWF st) (i : ℕ) :
    ∀ n, DebounceWF (applyEvents st i (n + 1)) ∧
      (applyEvents st i (n + 1)).nextId = st.nextId + (n + 1) ∧
      (applyEvents st i (n + 1)).queries = st.queries ∧
      ((st.nextId + n, i) ∈ (applyEvents st i (n + 1)).live) ∧
      (∀ p ∈ (applyEvents st i (n + 1)).live, p.2 = i → p.1 = st.nextId + n) ∧
      (∀ p ∈ (applyEvents st i (n + 1)).live,
        p ∈ st.live ∨ p = (st.nextId + n, i)) := by
  intro n
  induction n with
  | zero =>
      obtain ⟨hwf, hnext, hq, hmem, hidx, hold⟩ := onPulseEventChange_spec st h i
      have he1 : applyEvents st i 1 = onPulseEventChange st i := rfl
      rw [he1]
      refine ⟨hwf, by omega, hq, by simpa using hmem, by simpa using hidx, ?_⟩
      intro p hp
      by_cases hpe : p = (st.nextId + 0, i)
      · exact Or.inr hpe
      · exact Or.inl (hold p hp (by simpa using hpe))
  | succ n ih =>
      obtain ⟨ihwf, ihnext, ihq, ihmem, ihidx, ihsub⟩ := ih
      obtain ⟨hwf, hnext, hq, hmem, hidx, hold⟩ :=
        onPulseEventChange_spec (applyEvents st i (n + 1)) ihwf i
      have he1 : applyEvents st i (n + 1 + 1)
          = onPulseEventChange (applyEvents st i (n + 1)) i := rfl
      rw [he1]
      rw [ihnext] at hnext hmem hidx hold
      refine ⟨hwf, by omega, by rw [hq, ihq], by simpa using hmem,
              ?_, ?_⟩
      · intro p hp hpi
        have := hidx p hp hpi
        omega
      · intro p hp
        by_cases hpe : p = (st.nextId + (n + 1), i)
        · exact Or.inr hpe
        · have hpl : p ∈ (applyEvents st i (n + 1)).live := hold p hp hpe
          have hpi : ¬ p.2 = i := by
            intro hcon
            apply hpe
            have hp1 : p.1 = st.nextId + (n + 1) := hidx p hp hcon
            calc p = (p.1, p.2) := rfl
              _ = (st.nextId + (n + 1), i) := by rw [hp1, hcon]
          rcases ihsub p hpl with hl | hr
          · exact Or.inl hl
          · exfalso
            apply hpi
            rw [hr]

/-- `self._timers = {}` with no pending sources is well formed. -/
theorem debounceWF_init : DebounceWF DebounceState.init := by
  refine ⟨List.nodup_nil, ?_, ?_, le_refl 1⟩ <;> intro p hp <;> cases hp

/-- C2 (confirmed): for a well-formed debounce table, (a) at most one
pending timer exists per device index, and the invariant is preserved
by every event arrival and every timer fire; (b) a rapid burst of
`n + 1` events for one index (all delivered before any fire) leaves
exactly one pending timer for that index and performs no query; firing
the timer scheduled by the last event performs exactly one query, while
firing any of the ids scheduled by the earlier events of the burst is a
no-op, because each event cancelled its predecessor's timer. -/
theorem C2_thm (st : DebounceState) (h : DebounceWF st) (i : ℕ) (n : ℕ) :
    (∀ j, countLiveFor st j ≤ 1) ∧
    (∀ j, DebounceWF (onPulseEventChange st j)) ∧
    (∀ id, DebounceWF (fireSource st id)) ∧
    countLiveFor (applyEvents st i (n + 1)) i = 1 ∧
    (applyEvents st i (n + 1)).queries = st.queries ∧
    (fireSource (applyEvents st i (n + 1)) (st.nextId + n)).queries
      = st.queries + 1 ∧
    (∀ k, k < n → fireSource (applyEvents st i (n + 1)) (st.nextId + k)
      = applyEvents st i (n + 1)) := by
  obtain ⟨hwf', hnext, hq, hmem, hidx, hsub⟩ := applyEvents_spec st h i n
  refine ⟨fun j => countLiveFor_le_one st h j,
          fun j => (onPulseEventChange_spec st h j).1,
          fun id => fireSource_WF st h id, ?_, hq, ?_, ?_⟩
  · have hle := countLiveFor_le_one _ hwf' i
    have hge : 1 ≤ countLiveFor (applyEvents st i (n + 1)) i := by
      unfold countLiveFor
      have hin : (st.nextId + n, i)
          ∈ (applyEvents st i (n + 1)).live.filter (fun p => p.2 = i) := by
        rw [List.mem_filter]
        exact ⟨hmem, by simp⟩
      have := List.length_pos.mpr (List.ne_nil_of_mem hin)
      omega
    omega
  · rw [fireSource_queries _ hwf' hmem, hq]
  · intro k hk
    apply fireSource_of_not_live
    intro p hp hpk
    obtain ⟨hnd0, hbd0, hdict0, hpos0⟩ := h
    rcases hsub p hp with hpl | hpe
    · have := (hbd0 p hpl).2
      omega
    · rw [hpe] at hpk
      simp only [] at hpk
      omega

/-- C2 witness: two rapid events for device index 3 on a fresh table. -/
theorem C2_wit :
    DebounceWF DebounceState.init ∧
    ((∀ j, countLiveFor DebounceState.init j ≤ 1) ∧
     (∀ j, DebounceWF (onPulseEventChange DebounceState.init j)) ∧
     (∀ id, DebounceWF (fireSource DebounceState.init id)) ∧
     countLiveFor (applyEvents DebounceState.init 3 2) 3 = 1 ∧
     (applyEvents DebounceState.init 3 2).queries
        = DebounceState.init.queries ∧
     (fireSource (applyEvents DebounceState.init 3 2)
        (DebounceState.init.nextId + 1)).queries
        = DebounceState.init.queries + 1 ∧
     (∀ k, k < 1 → fireSource (applyEvents DebounceState.init 3 2)
        (DebounceState.init.nextId + k) = applyEvents DebounceState.init 3 2)) :=
  ⟨debounceWF_init, C2_thm DebounceState.init debounceWF_init 3 1⟩

end Klar
